import Mathlib

/-!
# Verification of the digger fetch-orchestration core

A shallow embedding of the fetch orchestration and caching engine of the
`raycast-digger` extension, translated from

* `src/utils/config.ts`      — timeout / limit / cache constants,
* `src/utils/fetcher.ts`     — head capture, HTTPS→HTTP fallback, text-resource
  validation (soft-404 detection),
* `src/utils/waybackUtils.ts`— archive-history probe result shape,
* `src/hooks/useFetchSite.ts`— the per-request orchestrator `fetchSite`,
* `src/types/index.ts`       — the report data model.

Network I/O, DOM parsing (cheerio) and the missing-from-snapshot helper
modules are modelled at their interfaces: probe outcomes are inputs of the
orchestrator model, and the document-head extractor is an input function,
exactly as the specification scopes them ("external collaborators").

JavaScript conventions that matter for the translation:

* optional object fields are `Option` values; a JS truthiness test on such a
  field (`if (x.f)`) is `f ≠ none` for object-valued fields, `f = some true`
  for booleans, and `∃ n ≠ 0, f = some n` for numbers;
* the progress fractions `0.1, 0.3, 0.5, 1` are only ever assigned and
  compared, never computed with, so they are embedded as exact rationals;
* string indexes/slices follow JS `indexOf`/`slice` on the character
  sequence.
-/

namespace Digger

/-! ## Configuration constants — `src/utils/config.ts` -/

/-- `LIMITS.MAX_HEAD_BYTES` — maximum bytes to read when extracting head content. -/
def MAX_HEAD_BYTES : Nat := 512 * 1024

/-- `LIMITS.MIN_HEAD_BYTES` — documented in `config.ts` as "Minimum bytes to read
before honoring </head> tag (handles JS-heavy sites with tiny initial heads)". -/
def MIN_HEAD_BYTES : Nat := 16 * 1024

/-- `CACHE.DURATION_MS` — how long cached results remain valid (48 hours). -/
def CACHE_DURATION_MS : Nat := 48 * 60 * 60 * 1000

/-- `CACHE.MAX_ENTRIES` — maximum number of cached entries. -/
def CACHE_MAX_ENTRIES : Nat := 50

/-- `LIMITS.MAX_RESOURCES` — maximum resources parsed per page. -/
def MAX_RESOURCES : Nat := 50

/-! ## String helpers (JS `indexOf` / `slice` / `startsWith` semantics)

Strings are handled through their character lists; indexes count characters,
matching JS string indexes for the ASCII markers the code searches for. -/

/-- Does `pat` occur at the head of `l`? (JS `startsWith` at an offset). -/
def listHasPrefixAt : List Char → List Char → Bool
  | _, [] => true
  | [], _ :: _ => false
  | c :: cs, p :: ps => c = p && listHasPrefixAt cs ps

/-- First index at which `pat` occurs in `l`, JS `String.indexOf` style. -/
def listIndexOfSub (l pat : List Char) : Option Nat :=
  match l with
  | [] => if pat.isEmpty then some 0 else none
  | _ :: tl =>
    if listHasPrefixAt l pat then some 0
    else (listIndexOfSub tl pat).map (· + 1)

/-- JS `s.indexOf(pat)` returning `none` for `-1`. -/
def strIndexOf (s pat : String) : Option Nat :=
  listIndexOfSub s.toList pat.toList

/-- JS `s.slice(0, n)` — the first `n` characters. -/
def strTake (s : String) (n : Nat) : String :=
  ⟨s.toList.take n⟩

/-- JS `s.length` as a character count. -/
def strLen (s : String) : Nat := s.toList.length

/-- ASCII lowercase of a string (JS `toLowerCase` restricted to ASCII). -/
def strLower (s : String) : String :=
  ⟨s.toList.map Char.toLower⟩

/-- JS `s.trim()` — strip leading and trailing whitespace. -/
def strTrim (s : String) : String :=
  ⟨(s.toList.dropWhile Char.isWhitespace).reverse.dropWhile Char.isWhitespace |>.reverse⟩

/-- JS `s.startsWith(pat)`. -/
def strStartsWith (s pat : String) : Bool :=
  listHasPrefixAt s.toList pat.toList

/-- Does `l` contain an occurrence of `pat` followed by a whitespace character
or `>`? This is the JS regex test `/<pat[\s>]/` used by the soft-404 scanner,
with `pat` one of `<html`, `<head`, `<body`. -/
def listHasTagMarker : List Char → List Char → Bool
  | [], _ => false
  | c :: cs, pat =>
    (listHasPrefixAt (c :: cs) pat &&
      (match (c :: cs).drop pat.length with
       | [] => false
       | d :: _ => d.isWhitespace || d = '>')) ||
    listHasTagMarker cs pat

/-! ## `fetchHeadOnly` head extraction — `src/utils/fetcher.ts` lines 74–102

After the full response text is received, the code cuts it at the first
`</head>` (any of three casings), else at the first `<body` (any of three
casings), else at `MAX_HEAD_BYTES` when longer.  `MIN_HEAD_BYTES` is never
consulted. -/

/-- Result of the head-capture step: the captured markup and the `truncated` flag. -/
structure HeadCapture where
  headHtml : String
  truncated : Bool
deriving DecidableEq, Repr

/-- The head-extraction step of `fetchHeadOnly` (fetcher.ts lines 74–102),
applied to the fully received response text. -/
def extractHead (fullText : String) : HeadCapture :=
  let headEndIndex :=
    (strIndexOf fullText "</head>").orElse fun _ =>
      (strIndexOf fullText "</HEAD>").orElse fun _ =>
        strIndexOf fullText "</Head>"
  match headEndIndex with
  | some idx => { headHtml := strTake fullText (idx + 7), truncated := true }
  | none =>
    let bodyStartIndex :=
      (strIndexOf fullText "<body").orElse fun _ =>
        (strIndexOf fullText "<BODY").orElse fun _ =>
          strIndexOf fullText "<Body"
    match bodyStartIndex with
    | some idx => { headHtml := strTake fullText idx, truncated := true }
    | none =>
      if strLen fullText > MAX_HEAD_BYTES then
        { headHtml := strTake fullText MAX_HEAD_BYTES, truncated := true }
      else
        { headHtml := fullText, truncated := false }

/-! ## Text-resource validation — `src/utils/fetcher.ts` lines 187–283 -/

/-- `isValidTextResource` (fetcher.ts lines 187–219): `false` when the
content-type header or the body reveals an HTML document. -/
def isValidTextResource (contentType : Option String) (content : String) : Bool :=
  let ctypeOk :=
    match contentType with
    | some ct =>
      let lowerContentType := strLower ct
      !((strIndexOf lowerContentType "text/html").isSome ||
        (strIndexOf lowerContentType "application/xhtml").isSome)
    | none => true
  if !ctypeOk then false
  else
    let trimmedContent := strLower (strTrim content)
    if strStartsWith trimmedContent "<!doctype" ||
       strStartsWith trimmedContent "<html" ||
       strStartsWith trimmedContent "<head" ||
       strStartsWith trimmedContent "<body" ||
       strStartsWith trimmedContent "<?xml" then
      false
    else
      let firstChunk := strTake trimmedContent 500
      if listHasTagMarker firstChunk.toList "<html".toList ||
         listHasTagMarker firstChunk.toList "<head".toList ||
         listHasTagMarker firstChunk.toList "<body".toList then
        false
      else
        true

/-- Result of `fetchTextResource` (fetcher.ts lines 175–181). -/
structure TextResourceResult where
  exists' : Bool
  content : Option String
  contentType : Option String
  status : Nat
  isSoft404 : Bool
deriving DecidableEq, Repr

/-- Is an HTTP status in the 2xx range? (fetcher.ts line 245 tests
`status < 200 || status >= 300`.) -/
def isStatus2xx (status : Nat) : Bool :=
  200 ≤ status && status < 300

/-- `fetchTextResource` (fetcher.ts lines 225–283) after the response arrived,
as a function of the response's status, content-type header and body text. -/
def fetchTextResource (status : Nat) (contentType : Option String)
    (content : String) : TextResourceResult :=
  if !isStatus2xx status then
    { exists' := false, content := none, contentType, status, isSoft404 := false }
  else
    let isValid := isValidTextResource contentType content
    { exists' := isValid
      content := if isValid then some content else none
      contentType
      status
      isSoft404 := !isValid }

/-! ## HTTPS→HTTP fallback — `src/utils/fetcher.ts` lines 134–173

`fetchHeadOnly`'s network side is abstracted as an oracle from the attempted
URL to that attempt's outcome; the fallback wrapper's control flow is
translated directly.  The run records the list of attempted URLs, in order. -/

/-- Outcome of one full `fetchHeadOnly` call (fetcher.ts lines 14–21), as
surfaced to the fallback wrapper: the streamed-head result or a thrown error. -/
structure StreamedHeadResult where
  headHtml : String
  status : Nat
  headers : List (String × String)
  timing : Nat
  finalUrl : String
  truncated : Bool
deriving DecidableEq, Repr

/-- `new URL(url).protocol` for a well-formed URL: the part before the first
`:`, lowercased, with the `:` appended. -/
def urlProtocol (url : String) : String :=
  strLower ⟨url.toList.takeWhile (· ≠ ':')⟩ ++ ":"

/-- `url.replace(/^https:\/\//i, "http://")` (fetcher.ts line 152). -/
def toHttpUrl (url : String) : String :=
  if strLower (strTake url 8) = "https://" then "http://" ++ ⟨url.toList.drop 8⟩
  else url

/-- A run of the fallback wrapper: its result and the URLs it attempted. -/
structure FallbackRun where
  result : Except String StreamedHeadResult
  attempts : List String
deriving Repr

/-- `fetchHeadOnlyWithFallback` (fetcher.ts lines 134–173) over an attempt
oracle: explicit `http:` URLs are fetched once directly; otherwise the URL is
attempted as given and, only if that throws, re-attempted once with the
`https://` prefix replaced by `http://`; if both throw, the first attempt's
error is re-thrown. -/
def fetchHeadOnlyWithFallback (oracle : String → Except String StreamedHeadResult)
    (url : String) : FallbackRun :=
  if urlProtocol url = "http:" then
    { result := oracle url, attempts := [url] }
  else
    match oracle url with
    | .ok r => { result := .ok r, attempts := [url] }
    | .error httpsError =>
      let httpUrl := toHttpUrl url
      match oracle httpUrl with
      | .ok r => { result := .ok r, attempts := [url, httpUrl] }
      | .error _ => { result := .error httpsError, attempts := [url, httpUrl] }

/-! ## Report data model — `src/types/index.ts` -/

/-- `OverviewData` (types/index.ts lines 35–42). -/
structure OverviewData where
  title : Option String
  description : Option String
  favicon : Option String
  screenshot : Option String
  language : Option String
  charset : Option String
deriving DecidableEq, Repr

/-- One JSON-LD document; its JSON value is kept abstract as its raw text,
since the orchestrator only collects the parsed documents. -/
structure JsonLdDoc where
  raw : String
deriving DecidableEq, Repr

/-- One entry of `MetadataData.metaTags`. -/
structure MetaTag where
  name : Option String
  property : Option String
  content : Option String
deriving DecidableEq, Repr

/-- `MetadataData` (types/index.ts lines 44–49); the string-keyed records are
association lists. -/
structure MetadataData where
  openGraph : Option (List (String × String))
  twitterCard : Option (List (String × String))
  jsonLd : Option (List JsonLdDoc)
  metaTags : Option (List MetaTag)
deriving DecidableEq, Repr

/-- `ContentSignalsData` (types/index.ts lines 52–61). -/
structure ContentSignalsData where
  search : Option String
  aiInput : Option String
  aiTrain : Option String
  raw : Option String
deriving DecidableEq, Repr

/-- `PaymentSignalsData` (types/index.ts lines 68–81). -/
structure PaymentSignalsData where
  detected : Bool
  statusCode402 : Option Bool
  paymentRequired : Option Bool
  paymentResponse : Option Bool
  paymentRequiredRaw : Option String
  paymentResponseRaw : Option String
deriving DecidableEq, Repr

/-- One entry of `DiscoverabilityData.alternates`. -/
structure AlternateLink where
  href : String
  hreflang : Option String
  type' : Option String
deriving DecidableEq, Repr

/-- `DiscoverabilityData` (types/index.ts lines 83–95), together with the
`rss` field the orchestrator assigns (useFetchSite.ts line 288). -/
structure DiscoverabilityData where
  robots : Option String
  robotsTxt : Option Bool
  canonical : Option String
  alternates : Option (List AlternateLink)
  sitemap : Option String
  llmsTxt : Option Bool
  contentSignals : Option ContentSignalsData
  paymentSignals : Option PaymentSignalsData
  rss : Option String
deriving DecidableEq, Repr

/-- A stylesheet reference collected from `<link rel="stylesheet">`. -/
structure StylesheetRef where
  href : String
  media : Option String
deriving DecidableEq, Repr

/-- A script reference collected from `<script src>`. -/
structure ScriptRef where
  src : String
  async : Option Bool
  defer : Option Bool
  type' : Option String
deriving DecidableEq, Repr

/-- An image reference collected from `<img src>`. -/
structure ImageRef where
  src : String
  alt : Option String
deriving DecidableEq, Repr

/-- A generic link reference collected from other `<link rel>` tags. -/
structure LinkRef where
  href : String
  rel : Option String
deriving DecidableEq, Repr

/-- `ResourcesData` as the orchestrator constructs it (useFetchSite.ts lines
384–389). -/
structure ResourcesData where
  stylesheets : Option (List StylesheetRef)
  scripts : Option (List ScriptRef)
  images : Option (List ImageRef)
  links : Option (List LinkRef)
deriving DecidableEq, Repr

/-- `NetworkingData` (types/index.ts lines 162–169). -/
structure NetworkingData where
  ipAddress : Option String
  server : Option String
  headers : Option (List (String × String))
  statusCode : Option Nat
  redirects : Option (List (String × String × Nat))
  finalUrl : Option String
deriving DecidableEq, Repr

/-- `DNSData` (types/index.ts lines 171–178). -/
structure DNSData where
  aRecords : Option (List String)
  aaaaRecords : Option (List String)
  mxRecords : Option (List (Nat × String))
  txtRecords : Option (List String)
  nsRecords : Option (List String)
  cnameRecord : Option String
deriving DecidableEq, Repr

/-- `PerformanceData` (types/index.ts lines 180–186). -/
structure PerformanceData where
  loadTime : Option Nat
  ttfb : Option Nat
  domContentLoaded : Option Nat
  pageSize : Option Nat
  requestCount : Option Nat
deriving DecidableEq, Repr

/-- `HistoryData` (types/index.ts lines 188–196): the archive-history probe
result. -/
structure HistoryData where
  waybackMachineSnapshots : Option Nat
  isEstimate : Option Bool
  firstSeen : Option String
  lastSeen : Option String
  archiveUrl : Option String
  rateLimited : Option Bool
deriving DecidableEq, Repr

/-- One feed reference (`{url, title?}`). -/
structure FeedRef where
  url : String
  title : Option String
deriving DecidableEq, Repr

/-- `DataFeedsData` (types/index.ts lines 198–202). -/
structure DataFeedsData where
  rss : Option (List FeedRef)
  atom : Option (List FeedRef)
  json : Option (List FeedRef)
deriving DecidableEq, Repr

/-- One `HostMetadataData.links` entry (types/index.ts lines 208–214). -/
structure HostMetaLink where
  rel : String
  href : Option String
  template : Option String
  type' : Option String
  title : Option String
deriving DecidableEq, Repr

/-- `HostMetadataData` (types/index.ts lines 205–216). -/
structure HostMetadataData where
  available : Bool
  properties : Option (List (String × String))
  links : Option (List HostMetaLink)
  format : Option String
deriving DecidableEq, Repr

/-- `BotProtectionData` (types/index.ts lines 17–26). -/
structure BotProtectionData where
  detected : Bool
  provider : Option String
  providerName : Option String
  isChallengePage : Bool
deriving DecidableEq, Repr

/-- Modelled from the spec: `CertificateInfo` (the `src/utils/dnsUtils.ts`
module is not in the repository snapshot) carries the TLS certificate
metadata the spec names — issuer, validity window, subject alternative
names. -/
structure CertificateInfo where
  issuer : Option String
  validFrom : Option String
  validTo : Option String
  subjectAltNames : List String
deriving DecidableEq, Repr

/-- `DiggerResult` (types/index.ts lines 1–15): the aggregate Report. -/
structure DiggerResult where
  url : String
  overview : Option OverviewData
  metadata : Option MetadataData
  discoverability : Option DiscoverabilityData
  resources : Option ResourcesData
  networking : Option NetworkingData
  dns : Option DNSData
  performance : Option PerformanceData
  history : Option HistoryData
  dataFeeds : Option DataFeedsData
  hostMetadata : Option HostMetadataData
  botProtection : Option BotProtectionData
  fetchedAt : Nat
deriving DecidableEq, Repr

/-- `CacheEntry` (types/index.ts lines 28–33). -/
structure CacheEntry where
  url : String
  data : DiggerResult
  timestamp : Nat
  lastAccessed : Nat
deriving DecidableEq, Repr

/-! ## Cache read — modelled from the spec

`src/hooks/useCache.ts` is not in the repository snapshot; only its caller
`useFetchSite.ts` is.  The spec (§4.4) fixes the read contract: a `get` is a
hit only if `now - entry.timestamp < retention window` (48 hours); expired
entries are treated as absent. -/

/-- Modelled from the spec: the Cache Store read path of `useCache.ts`
(missing from the snapshot).  Looks up the entry for a normalized URL and
treats it as present only while `now - timestamp < CACHE_DURATION_MS`. -/
def getFromCache (store : List CacheEntry) (key : String) (now : Nat) :
    Option DiggerResult :=
  match store.find? (fun e => e.url = key) with
  | some e => if now - e.timestamp < CACHE_DURATION_MS then some e.data else none
  | none => none

/-- Modelled from the spec: `getRootResourceUrl` of `src/utils/urlUtils.ts`
(missing from the snapshot) resolves a conventional resource name against
the normalized origin, i.e. `scheme://host/name`; it yields nothing when the
URL has no `://` separator. -/
def getRootResourceUrl (name url : String) : Option String :=
  match strIndexOf url "://" with
  | none => none
  | some i =>
    let afterScheme := url.toList.drop (i + 3)
    let host : String := ⟨afterScheme.takeWhile (· ≠ '/')⟩
    some (strTake url (i + 3) ++ host ++ "/" ++ name)

/-! ## Progress model — `src/hooks/useFetchSite.ts` lines 15–35 -/

/-- The eight progress categories of `LoadingProgress`. -/
inductive Category
  | overview | metadata | discoverability | resources
  | networking | dns | history | dataFeeds
deriving DecidableEq, Repr

/-- `LoadingProgress` (useFetchSite.ts lines 15–24): one fraction per
category. -/
structure LoadingProgress where
  overview : ℚ
  metadata : ℚ
  discoverability : ℚ
  resources : ℚ
  networking : ℚ
  dns : ℚ
  history : ℚ
  dataFeeds : ℚ
deriving DecidableEq, Repr

/-- Read one category's fraction. -/
def progGet (p : LoadingProgress) : Category → ℚ
  | .overview => p.overview
  | .metadata => p.metadata
  | .discoverability => p.discoverability
  | .resources => p.resources
  | .networking => p.networking
  | .dns => p.dns
  | .history => p.history
  | .dataFeeds => p.dataFeeds

/-- `updateProgress` state change: replace one category's fraction. -/
def progSet (p : LoadingProgress) : Category → ℚ → LoadingProgress
  | .overview, v => { p with overview := v }
  | .metadata, v => { p with metadata := v }
  | .discoverability, v => { p with discoverability := v }
  | .resources, v => { p with resources := v }
  | .networking, v => { p with networking := v }
  | .dns, v => { p with dns := v }
  | .history, v => { p with history := v }
  | .dataFeeds, v => { p with dataFeeds := v }

/-- The same fraction `v` for every category. -/
def progConst (v : ℚ) : LoadingProgress :=
  ⟨v, v, v, v, v, v, v, v⟩

/-- `initialProgress` (useFetchSite.ts lines 26–35): all categories at 0. -/
def initialProgress : LoadingProgress := progConst 0

/-! ## Orchestrator events

`fetchSite` (useFetchSite.ts lines 45–524) is embedded as a pure function
from one request's inputs to the ordered list of observable actions it
performs: progress writes, data-state writes, probe starts/resolutions, the
cancellation signal, the cache write and the failure report.  The
per-category progress writes carry the exact fractions the code assigns. -/

/-- The probes a request starts. -/
inductive ProbeKind
  | main | robots | sitemap | dnsProbe | cert | wayback | hostMeta
deriving DecidableEq, Repr

/-- The four background tasks whose `.then` handlers the orchestrator
attaches (useFetchSite.ts lines 404–440). -/
inductive BgTask
  | dnsTask | certTask | waybackTask | hostMetaTask
deriving DecidableEq, Repr

/-- A partial `updateData` payload (useFetchSite.ts lines 72–75): the keys of
the object merged into the data state. -/
inductive UpdatePayload
  | networkingPerf (n : NetworkingData) (p : PerformanceData)
  | overviewU (o : OverviewData)
  | metadataU (m : MetadataData)
  | discoverabilityU (d : DiscoverabilityData)
  | resourcesFeeds (r : ResourcesData) (df : Option DataFeedsData)
  | dnsU (d : Option DNSData)
  | hostMetaU (h : Option HostMetadataData)
  | historyU (h : Option HistoryData)
deriving DecidableEq, Repr

/-- One observable action of a `fetchSite` run. -/
inductive Event
  | setProgressAll (p : LoadingProgress)
  | updateProgress (c : Category) (v : ℚ)
  | setDataInit (url : String) (fetchedAt : Nat)
  | setDataFull (r : DiggerResult)
  | dataUpdate (u : UpdatePayload)
  | historyReconcile (w : HistoryData)
  | setCert (c : CertificateInfo)
  | probeStart (p : ProbeKind)
  | probeResolved (p : ProbeKind)
  | abortBg
  | cacheWrite (url : String) (r : DiggerResult)
  | fail (msg : String)
deriving DecidableEq, Repr

/-! ## Head extraction interface

The spec scopes HTML head parsing out as an external collaborator ("treated
as a pure function: raw head markup → structured fields").  `ParsedHead`
is that function's output for the captured head markup: the cheerio-derived
values `fetchSite` consumes (useFetchSite.ts lines 186–378). -/

/-- The structured fields the Document Head Extractor produces from the
captured head markup. -/
structure ParsedHead where
  overview : OverviewData
  openGraph : List (String × String)
  twitterCard : List (String × String)
  jsonLd : List JsonLdDoc
  metaTags : List MetaTag
  robotsMeta : Option String
  canonical : Option String
  alternates : List AlternateLink
  rssLink : Option String
  stylesheets : List StylesheetRef
  scripts : List ScriptRef
  images : List ImageRef
  links : List LinkRef
  rssFeeds : List FeedRef
  atomFeeds : List FeedRef
  jsonFeeds : List FeedRef
deriving DecidableEq, Repr

/-! ## One request's inputs

Everything the environment decides during one `fetchSite(targetUrl)` run on
the already-normalized URL (`normalizeUrl` lives in the snapshot-missing
`urlUtils.ts`; no claim depends on its internals, so the model starts from
its output). -/

/-- The environment of one `fetchSite` run: probe outcomes, the cache-lookup
answer, the captured React `data` closure value consulted at
useFetchSite.ts line 462, the head extractor, the clock values and the
order in which the four background `.then` handlers fire. -/
structure FetchInputs where
  normalizedUrl : String
  cached : Option DiggerResult
  closureData : Option DiggerResult
  htmlResult : Except String StreamedHeadResult
  robotsResult : Option StreamedHeadResult
  sitemapResult : Option StreamedHeadResult
  dnsData : Option DNSData
  certInfo : Option CertificateInfo
  waybackData : Option HistoryData
  hostMeta : Option HostMetadataData
  parseHead : String → ParsedHead
  now : Nat
  nowFinal : Nat
  sched : List BgTask

/-- Case-insensitive-key lookup of a response header (`headers.server`). -/
def lookupHeader (headers : List (String × String)) (key : String) :
    Option String :=
  (headers.find? (fun kv => strLower kv.1 = key)).map (·.2)

/-- The final history reconciliation (useFetchSite.ts lines 458–468):
rate-limited archive data with a zero or absent snapshot count must not
overwrite a previously known positive count held in the captured `data`
closure value. -/
def finalHistory (waybackData : Option HistoryData)
    (closureData : Option DiggerResult) : Option HistoryData :=
  match waybackData with
  | none => none
  | some w =>
    if w.rateLimited = some true ∧
        (w.waybackMachineSnapshots = none ∨ w.waybackMachineSnapshots = some 0) then
      match closureData with
      | some d =>
        match d.history with
        | some h =>
          match h.waybackMachineSnapshots with
          | some (n + 1) =>
            if n + 1 > 0 then some { h with rateLimited := some true }
            else some w
          | _ => some w
        | none => some w
      | none => some w
    else some w

/-- Events of one background `.then` handler (useFetchSite.ts lines
404–440).  The dns handler completes the dns progress and merges its data;
the cert handler stores the certificate when one was obtained; the wayback
handler always completes the history progress, then merges
non-rate-limited data directly and applies the preserve-prior-count
reconciliation against the previous data state when rate limited (lines
417–435); the host-meta handler merges its data. -/
def handlerSeg (i : FetchInputs) : BgTask → List Event
  | .dnsTask =>
    [.probeResolved .dnsProbe, .updateProgress .dns 1, .dataUpdate (.dnsU i.dnsData)]
  | .certTask =>
    .probeResolved .cert ::
      (match i.certInfo with
       | some c => [Event.setCert c]
       | none => [])
  | .waybackTask =>
    .probeResolved .wayback :: .updateProgress .history 1 ::
      (match i.waybackData with
       | some w =>
         if w.rateLimited ≠ some true then [Event.dataUpdate (.historyU (some w))]
         else [Event.historyReconcile w]
       | none => [])
  | .hostMetaTask =>
    [.probeResolved .hostMeta, .dataUpdate (.hostMetaU i.hostMeta)]

/-- Events of the four background `.then` handlers, fired in the order the
tasks complete. -/
def handlerEvents (i : FetchInputs) : List BgTask → List Event
  | [] => []
  | t :: rest => handlerSeg i t ++ handlerEvents i rest

/-- `length > 0 ? l : undefined` — the emptiness guard `fetchSite` applies to
every collected list before storing it. -/
def nonemptyOpt {α : Type} (l : List α) : Option (List α) :=
  if l.isEmpty then none else some l

/-- The robots.txt URL of the request (useFetchSite.ts line 142). -/
def robotsUrl (i : FetchInputs) : Option String :=
  getRootResourceUrl "robots.txt" i.normalizedUrl

/-- The sitemap.xml URL of the request (useFetchSite.ts line 143). -/
def sitemapUrl (i : FetchInputs) : Option String :=
  getRootResourceUrl "sitemap.xml" i.normalizedUrl

/-- The settled sitemap fetch value: when no sitemap URL could be formed the
code awaits `Promise.resolve(null)` instead of a fetch (line 147). -/
def sitemapSettled (i : FetchInputs) : Option StreamedHeadResult :=
  match sitemapUrl i with
  | some _ => i.sitemapResult
  | none => none

/-- `NetworkingData` as assembled from the main response (useFetchSite.ts
lines 164–169 and 482–487). -/
def netOf (h : StreamedHeadResult) : NetworkingData where
  ipAddress := none
  server := lookupHeader h.headers "server"
  headers := some h.headers
  statusCode := some h.status
  redirects := none
  finalUrl := some h.finalUrl

/-- `PerformanceData` as assembled from the main response (lines 170–173 and
489–492). -/
def perfOf (h : StreamedHeadResult) : PerformanceData where
  loadTime := some h.timing
  ttfb := none
  domContentLoaded := none
  pageSize := some (strLen h.headHtml)
  requestCount := none

/-- `MetadataData` as assembled from the parsed head (lines 246–251). -/
def mdOf (parsed : ParsedHead) : MetadataData where
  openGraph := nonemptyOpt parsed.openGraph
  twitterCard := nonemptyOpt parsed.twitterCard
  jsonLd := nonemptyOpt parsed.jsonLd
  metaTags := nonemptyOpt parsed.metaTags

/-- `DiscoverabilityData` as assembled from the parsed head and the sitemap
probe (lines 264–289): `sitemap` is set only when the sitemap fetch settled
with a value, `alternates`/`rss` only when found; no other field is ever
assigned. -/
def discOf (i : FetchInputs) (parsed : ParsedHead) : DiscoverabilityData where
  robots := parsed.robotsMeta
  robotsTxt := none
  canonical := parsed.canonical
  alternates := nonemptyOpt parsed.alternates
  sitemap := match sitemapSettled i with
    | some _ => sitemapUrl i
    | none => none
  llmsTxt := none
  contentSignals := none
  paymentSignals := none
  rss := parsed.rssLink

/-- `ResourcesData` as assembled from the parsed head (lines 295–349 collect
at most `MAX_RESOURCES` of each kind, lines 384–389/476–480 store them). -/
def resOf (parsed : ParsedHead) : ResourcesData where
  stylesheets := nonemptyOpt (parsed.stylesheets.take MAX_RESOURCES)
  scripts := nonemptyOpt (parsed.scripts.take MAX_RESOURCES)
  images := nonemptyOpt (parsed.images.take MAX_RESOURCES)
  links := nonemptyOpt (parsed.links.take MAX_RESOURCES)

/-- `DataFeedsData` as assembled from the parsed head (lines 390–397 and
494–501): present only when some feed list is nonempty. -/
def feedsOf (parsed : ParsedHead) : Option DataFeedsData :=
  if parsed.rssFeeds.isEmpty && parsed.atomFeeds.isEmpty && parsed.jsonFeeds.isEmpty
  then none
  else some
    { rss := nonemptyOpt parsed.rssFeeds
      atom := nonemptyOpt parsed.atomFeeds
      json := nonemptyOpt parsed.jsonFeeds }

/-- The final Report built for caching (useFetchSite.ts lines 471–504). -/
def finalReport (i : FetchInputs) (h : StreamedHeadResult) : DiggerResult :=
  let parsed := i.parseHead h.headHtml
  { url := i.normalizedUrl
    overview := some parsed.overview
    metadata := some (mdOf parsed)
    discoverability := some (discOf i parsed)
    resources := some (resOf parsed)
    networking := some (netOf h)
    dns := i.dnsData
    performance := some (perfOf h)
    history := finalHistory i.waybackData i.closureData
    dataFeeds := feedsOf parsed
    hostMetadata := i.hostMeta
    botProtection := none
    fetchedAt := i.nowFinal }

/-- The request prologue (useFetchSite.ts lines 50 and 61–70): reset progress
to all-zero, then mark every category started at 0.1. -/
def preEvents : List Event :=
  [.setProgressAll initialProgress, .setProgressAll (progConst (1/10))]

/-- Cache-miss startup (lines 101–148): initialize the data state, bump the
networking/dns/history fractions, start the four background probes, start
the main document fetch and — when their URLs could be formed — the
robots.txt and sitemap.xml fetches, then await all three settlements
(`Promise.allSettled`, line 144). -/
def startEvents (i : FetchInputs) : List Event :=
  [.setDataInit i.normalizedUrl i.now,
   .updateProgress .networking (3/10),
   .updateProgress .dns (3/10), .updateProgress .history (3/10),
   .probeStart .dnsProbe, .probeStart .cert, .probeStart .wayback,
   .probeStart .hostMeta, .probeStart .main]
  ++ (match robotsUrl i with
      | some _ => [Event.probeStart .robots]
      | none => [])
  ++ (match sitemapUrl i with
      | some _ => [Event.probeStart .sitemap]
      | none => [])
  ++ [.probeResolved .main, .probeResolved .robots, .probeResolved .sitemap]

/-- The successful-main-fetch middle section (lines 162–398): networking data
first, then the head-extraction categories, each completing its progress as
its extraction finishes. -/
def parseEvents (i : FetchInputs) (h : StreamedHeadResult) : List Event :=
  [.updateProgress .networking 1,
   .dataUpdate (.networkingPerf (netOf h) (perfOf h)),
   .updateProgress .overview (1/2), .updateProgress .metadata (3/10),
   .updateProgress .discoverability (3/10), .updateProgress .resources (3/10),
   .updateProgress .dataFeeds (3/10),
   .updateProgress .overview 1,
   .dataUpdate (.overviewU (i.parseHead h.headHtml).overview),
   .updateProgress .metadata 1, .updateProgress .dataFeeds (1/2),
   .dataUpdate (.metadataU (mdOf (i.parseHead h.headHtml))),
   .updateProgress .discoverability 1,
   .dataUpdate (.discoverabilityU (discOf i (i.parseHead h.headHtml))),
   .updateProgress .resources 1, .updateProgress .dataFeeds 1,
   .dataUpdate (.resourcesFeeds (resOf (i.parseHead h.headHtml))
     (feedsOf (i.parseHead h.headHtml)))]

/-- The whole observable action sequence of one `fetchSite` run
(useFetchSite.ts lines 45–524).

* Fresh cache hit (lines 82–97): publish the cached Report, complete all
  progress, return — nothing else happens.
* Cache miss, main fetch rejected after its internal HTTPS→HTTP fallback
  (lines 150–156): signal the abort controller — which resolves every
  pending background wrapper promise without a value — and throw
  `"Failed to fetch website"`, reported by the catch block; the background
  `.then` handlers are never attached, so nothing further is merged.
* Cache miss, main fetch succeeded: networking and head-extraction updates,
  then the four background handlers in completion order, then the final
  Report is published and written to the cache (lines 507–508). -/
def fetchSiteTrace (i : FetchInputs) : List Event :=
  preEvents ++
  match i.cached with
  | some c => [.setDataFull c, .setProgressAll (progConst 1)]
  | none =>
    startEvents i ++
    match i.htmlResult with
    | .error _ => [.abortBg, .fail "Failed to fetch website"]
    | .ok h =>
      parseEvents i h ++ handlerEvents i i.sched ++
      [.setDataFull (finalReport i h), .cacheWrite i.normalizedUrl (finalReport i h)]

/-- The cache writes a trace performs, in order. -/
def writtenReports (tr : List Event) : List (String × DiggerResult) :=
  tr.filterMap fun e =>
    match e with
    | .cacheWrite u r => some (u, r)
    | _ => none

/-- How one event transforms the progress state (only `setProgress` calls
touch it). -/
def applyEv (p : LoadingProgress) : Event → LoadingProgress
  | .setProgressAll q => q
  | .updateProgress c v => progSet p c v
  | _ => p

/-- Fold a whole event list over the progress state. -/
def applyEvs (p : LoadingProgress) (evs : List Event) : LoadingProgress :=
  evs.foldl applyEv p

/-- Starting from progress state `p`, every event of the list moves every
category's fraction non-decreasingly. -/
def ProgMono (p : LoadingProgress) : List Event → Prop
  | [] => True
  | e :: rest => (∀ c, progGet p c ≤ progGet (applyEv p e) c) ∧ ProgMono (applyEv p e) rest

/-- The background probe each `.then` handler resolves. -/
def resolvedOf : BgTask → ProbeKind
  | .dnsTask => .dnsProbe
  | .certTask => .cert
  | .waybackTask => .wayback
  | .hostMetaTask => .hostMeta

/-- Events that leave the progress state untouched. -/
def isNeutral : Event → Bool
  | .setProgressAll _ => false
  | .updateProgress _ _ => false
  | _ => true

/-- The progress state after the all-started write (all categories 0.1). -/
def startedProgress : LoadingProgress := progConst (1/10)

/-- The progress state after the cache-miss startup section. -/
def afterStartProgress : LoadingProgress :=
  { startedProgress with networking := 3/10, dns := 3/10, history := 3/10 }

/-- The progress state after the parse section of a successful main fetch. -/
def afterParseProgress : LoadingProgress :=
  { afterStartProgress with
      overview := 1, metadata := 1, discoverability := 1, resources := 1,
      networking := 1, dataFeeds := 1 }

/-- Every category's fraction is at most 1. -/
def Bounded1 (p : LoadingProgress) : Prop := ∀ c, progGet p c ≤ 1

/-! ## Concrete fixtures for the witness theorems -/

/-- A head-extractor output with nothing found. -/
def emptyParsed : ParsedHead where
  overview :=
    { title := none, description := none, favicon := none, screenshot := none
      language := none, charset := none }
  openGraph := []
  twitterCard := []
  jsonLd := []
  metaTags := []
  robotsMeta := none
  canonical := none
  alternates := []
  rssLink := none
  stylesheets := []
  scripts := []
  images := []
  links := []
  rssFeeds := []
  atomFeeds := []
  jsonFeeds := []

/-- A successful main-document response fixture. -/
def okHead : StreamedHeadResult where
  headHtml := "<html><head></head>"
  status := 200
  headers := [("server", "nginx")]
  timing := 12
  finalUrl := "https://e.com/"
  truncated := true

/-- A rate-limited archive probe outcome with a zero snapshot count. -/
def rlZeroHistory : HistoryData where
  waybackMachineSnapshots := some 0
  isEstimate := none
  firstSeen := none
  lastSeen := none
  archiveUrl := some "https://web.archive.org/web/*/https://e.com"
  rateLimited := some true

/-- A previously known good history record with 42 snapshots. -/
def goodHistory : HistoryData where
  waybackMachineSnapshots := some 42
  isEstimate := none
  firstSeen := some "2004-07-01"
  lastSeen := some "2025-11-30"
  archiveUrl := some "https://web.archive.org/web/*/https://e.com"
  rateLimited := none

/-- An otherwise empty Report carrying `goodHistory` for `https://e.com`. -/
def priorReport : DiggerResult where
  url := "https://e.com"
  overview := none
  metadata := none
  discoverability := none
  resources := none
  networking := none
  dns := none
  performance := none
  history := some goodHistory
  dataFeeds := none
  hostMetadata := none
  botProtection := none
  fetchedAt := 5

/-- A baseline request environment: cache miss, successful main fetch, all
background probes empty-handed, handlers completing dns, cert, wayback,
host-meta in that order. -/
def baseInputs : FetchInputs where
  normalizedUrl := "https://e.com"
  cached := none
  closureData := none
  htmlResult := .ok okHead
  robotsResult := none
  sitemapResult := none
  dnsData := none
  certInfo := none
  waybackData := none
  hostMeta := none
  parseHead := fun _ => emptyParsed
  now := 100
  nowFinal := 200
  sched := [.dnsTask, .certTask, .waybackTask, .hostMetaTask]

/-- A response whose `</head>` marker sits at character index 28 — far below
the `MIN_HEAD_BYTES = 16384` floor — while body content continues after
it. -/
def earlyHeadInput : String :=
  "<html><head><title>x</title></head><body>more content</body></html>"

/-- An attempt oracle that throws a distinct error for the HTTPS URL and for
its HTTP fallback, to observe which error the wrapper re-throws. -/
def twoErrorOracle : String → Except String StreamedHeadResult :=
  fun u => if u = "https://a.com" then .error "https boom" else .error "http boom"

/-! ## Theorems -/

/-! ### Progress-state lemmas -/

theorem progGet_progSet (p : LoadingProgress) (c : Category) (v : ℚ) (c' : Category) :
    progGet (progSet p c v) c' = if c' = c then v else progGet p c' := by
  cases c <;> cases c' <;> simp [progGet, progSet]

theorem applyEvs_cons (p : LoadingProgress) (e : Event) (evs : List Event) :
    applyEvs p (e :: evs) = applyEvs (applyEv p e) evs := rfl

theorem applyEvs_append (p : LoadingProgress) (xs ys : List Event) :
    applyEvs p (xs ++ ys) = applyEvs (applyEvs p xs) ys :=
  List.foldl_append _ _ _ _

theorem ProgMono_append (xs ys : List Event) :
    ∀ p, ProgMono p (xs ++ ys) ↔ ProgMono p xs ∧ ProgMono (applyEvs p xs) ys := by
  induction xs with
  | nil => intro p; simp [ProgMono, applyEvs]
  | cons e tl ih =>
    intro p
    simp [ProgMono, applyEvs_cons, ih (applyEv p e), and_assoc]

theorem applyEv_neutral (p : LoadingProgress) (e : Event) (h : isNeutral e = true) :
    applyEv p e = p := by
  cases e <;> simp [isNeutral] at h ⊢ <;> rfl

theorem progMono_neutral_cons (p : LoadingProgress) (e : Event) (rest : List Event)
    (h : isNeutral e = true) (hrest : ProgMono p rest) : ProgMono p (e :: rest) := by
  show (∀ c, progGet p c ≤ progGet (applyEv p e) c) ∧ ProgMono (applyEv p e) rest
  rw [applyEv_neutral p e h]
  exact ⟨fun c => le_refl _, hrest⟩

theorem progMono_update_cons (p : LoadingProgress) (c : Category) (v : ℚ)
    (rest : List Event) (hv : progGet p c ≤ v) (hrest : ProgMono (progSet p c v) rest) :
    ProgMono p (.updateProgress c v :: rest) := by
  show (∀ c', progGet p c' ≤ progGet (progSet p c v) c') ∧ ProgMono (progSet p c v) rest
  refine ⟨fun c' => ?_, hrest⟩
  rw [progGet_progSet]
  by_cases hc : c' = c
  · subst hc; simp [hv]
  · simp [hc]

theorem progMono_setAll_cons (p q : LoadingProgress) (rest : List Event)
    (hq : ∀ c, progGet p c ≤ progGet q c) (hrest : ProgMono q rest) :
    ProgMono p (.setProgressAll q :: rest) := by
  show (∀ c, progGet p c ≤ progGet q c) ∧ ProgMono q rest
  exact ⟨hq, hrest⟩

theorem progMono_of_neutral (evs : List Event)
    (h : ∀ e ∈ evs, isNeutral e = true) :
    ∀ p, ProgMono p evs ∧ applyEvs p evs = p := by
  induction evs with
  | nil => intro p; exact ⟨trivial, rfl⟩
  | cons e tl ih =>
    intro p
    have he : isNeutral e = true := h e (List.mem_cons_self e tl)
    have htl := ih (fun e' he' => h e' (List.mem_cons_of_mem e he'))
    constructor
    · exact progMono_neutral_cons p e tl he ((htl p).1)
    · rw [applyEvs_cons, applyEv_neutral p e he]
      exact (htl p).2

/-! ### Trace-segment lemmas -/

theorem writtenReports_append (xs ys : List Event) :
    writtenReports (xs ++ ys) = writtenReports xs ++ writtenReports ys :=
  List.filterMap_append _ _ _

theorem writtenReports_cons (e : Event) (tl : List Event) :
    writtenReports (e :: tl) = writtenReports [e] ++ writtenReports tl := by
  rw [← writtenReports_append]
  rfl

theorem mem_writtenReports_iff (u : String) (r : DiggerResult) :
    ∀ tr : List Event, (u, r) ∈ writtenReports tr ↔ Event.cacheWrite u r ∈ tr := by
  intro tr
  induction tr with
  | nil => simp [writtenReports]
  | cons e tl ih =>
    rw [writtenReports_cons]
    simp only [writtenReports] at ih
    cases e <;>
      simp [writtenReports, List.filterMap_cons, ih, Prod.ext_iff, -List.mem_filterMap]

theorem handlerSeg_neutral_or_update (i : FetchInputs) (t : BgTask) :
    ∀ e ∈ handlerSeg i t, isNeutral e = true ∨
      e = Event.updateProgress .dns 1 ∨ e = Event.updateProgress .history 1 := by
  intro e he
  cases t with
  | dnsTask =>
    simp [handlerSeg] at he
    rcases he with rfl | rfl | rfl <;> simp [isNeutral]
  | certTask =>
    rcases hc : i.certInfo with _ | c <;> simp [handlerSeg, hc] at he
    · rcases he with rfl; simp [isNeutral]
    · rcases he with rfl | rfl <;> simp [isNeutral]
  | waybackTask =>
    rcases hw : i.waybackData with _ | w <;> simp [handlerSeg, hw] at he
    · rcases he with rfl | rfl <;> simp [isNeutral]
    · by_cases hrl : w.rateLimited = some true <;> simp [hrl] at he <;>
        rcases he with rfl | rfl | rfl <;> simp [isNeutral]
  | hostMetaTask =>
    simp [handlerSeg] at he
    rcases he with rfl | rfl <;> simp [isNeutral]

theorem progMono_handlerEvents (i : FetchInputs) :
    ∀ (sched : List BgTask) (p : LoadingProgress), Bounded1 p →
      ProgMono p (handlerEvents i sched) ∧
      Bounded1 (applyEvs p (handlerEvents i sched)) := by
  intro sched
  induction sched with
  | nil => intro p hp; exact ⟨trivial, hp⟩
  | cons t rest ih =>
    intro p hp
    have hseg : ∀ q : LoadingProgress, Bounded1 q →
        ProgMono q (handlerSeg i t) ∧ Bounded1 (applyEvs q (handlerSeg i t)) := by
      intro q hq
      have aux : ∀ evs : List Event,
          (∀ e ∈ evs, isNeutral e = true ∨
            e = Event.updateProgress .dns 1 ∨ e = Event.updateProgress .history 1) →
          ∀ q' : LoadingProgress, Bounded1 q' →
            ProgMono q' evs ∧ Bounded1 (applyEvs q' evs) := by
        intro evs
        induction evs with
        | nil => intro _ q' hq'; exact ⟨trivial, hq'⟩
        | cons e tl ihe =>
          intro hall q' hq'
          have he := hall e (List.mem_cons_self e tl)
          have htl := ihe (fun e' he' => hall e' (List.mem_cons_of_mem e he'))
          have hstep : (∀ c, progGet q' c ≤ progGet (applyEv q' e) c) ∧
              Bounded1 (applyEv q' e) := by
            rcases he with hne | rfl | rfl
            · rw [applyEv_neutral q' e hne]
              exact ⟨fun c => le_refl _, hq'⟩
            · constructor
              · intro c
                show progGet q' c ≤ progGet (progSet q' .dns 1) c
                rw [progGet_progSet]
                by_cases hc : c = Category.dns
                · subst hc; simp [hq' Category.dns]
                · simp [hc]
              · intro c
                show progGet (progSet q' .dns 1) c ≤ 1
                rw [progGet_progSet]
                by_cases hc : c = Category.dns
                · simp [hc]
                · simp [hc]; exact hq' c
            · constructor
              · intro c
                show progGet q' c ≤ progGet (progSet q' .history 1) c
                rw [progGet_progSet]
                by_cases hc : c = Category.history
                · subst hc; simp [hq' Category.history]
                · simp [hc]
              · intro c
                show progGet (progSet q' .history 1) c ≤ 1
                rw [progGet_progSet]
                by_cases hc : c = Category.history
                · simp [hc]
                · simp [hc]; exact hq' c
          obtain ⟨hmono, hbnd⟩ := htl (applyEv q' e) hstep.2
          exact ⟨⟨hstep.1, hmono⟩, by rw [applyEvs_cons]; exact hbnd⟩
      exact aux (handlerSeg i t) (handlerSeg_neutral_or_update i t) q hq
    have h1 := hseg p hp
    have h2 := ih (applyEvs p (handlerSeg i t)) h1.2
    constructor
    · show ProgMono p (handlerSeg i t ++ handlerEvents i rest)
      rw [ProgMono_append]
      exact ⟨h1.1, h2.1⟩
    · show Bounded1 (applyEvs p (handlerSeg i t ++ handlerEvents i rest))
      rw [applyEvs_append]
      exact h2.2

theorem writtenReports_startEvents (i : FetchInputs) :
    writtenReports (startEvents i) = [] := by
  rcases hr : robotsUrl i with _ | u <;> rcases hs : sitemapUrl i with _ | v <;>
    simp [startEvents, writtenReports, hr, hs]

theorem writtenReports_parseEvents (i : FetchInputs) (h : StreamedHeadResult) :
    writtenReports (parseEvents i h) = [] := by
  simp [parseEvents, writtenReports]

theorem writtenReports_handlerSeg (i : FetchInputs) (t : BgTask) :
    writtenReports (handlerSeg i t) = [] := by
  cases t with
  | dnsTask => rfl
  | certTask => rcases hc : i.certInfo with _ | c <;> simp [handlerSeg, hc, writtenReports]
  | waybackTask =>
    rcases hw : i.waybackData with _ | w
    · simp [handlerSeg, hw, writtenReports]
    · by_cases hrl : w.rateLimited = some true <;>
        simp [handlerSeg, hw, hrl, writtenReports]
  | hostMetaTask => rfl

theorem writtenReports_handlerEvents (i : FetchInputs) :
    ∀ sched : List BgTask, writtenReports (handlerEvents i sched) = [] := by
  intro sched
  induction sched with
  | nil => rfl
  | cons t rest ih =>
    show writtenReports (handlerSeg i t ++ handlerEvents i rest) = []
    rw [writtenReports_append, writtenReports_handlerSeg, ih]
    rfl

theorem writtenReports_preEvents : writtenReports preEvents = [] := rfl

theorem writtenReports_trace_hit (i : FetchInputs) (c : DiggerResult)
    (hc : i.cached = some c) : writtenReports (fetchSiteTrace i) = [] := by
  have h1 : fetchSiteTrace i =
      preEvents ++ [Event.setDataFull c, Event.setProgressAll (progConst 1)] := by
    simp [fetchSiteTrace, hc]
  rw [h1, writtenReports_append, writtenReports_preEvents]
  rfl

theorem writtenReports_trace_error (i : FetchInputs) (e : String)
    (hc : i.cached = none) (he : i.htmlResult = .error e) :
    writtenReports (fetchSiteTrace i) = [] := by
  have h1 : fetchSiteTrace i =
      preEvents ++ (startEvents i ++
        [Event.abortBg, Event.fail "Failed to fetch website"]) := by
    simp [fetchSiteTrace, hc, he]
  rw [h1, writtenReports_append, writtenReports_append, writtenReports_preEvents,
    writtenReports_startEvents]
  rfl

theorem writtenReports_trace_ok (i : FetchInputs) (h : StreamedHeadResult)
    (hc : i.cached = none) (hh : i.htmlResult = .ok h) :
    writtenReports (fetchSiteTrace i) = [(i.normalizedUrl, finalReport i h)] := by
  have h1 : fetchSiteTrace i =
      preEvents ++ (startEvents i ++ (parseEvents i h ++ (handlerEvents i i.sched ++
        [Event.setDataFull (finalReport i h),
         Event.cacheWrite i.normalizedUrl (finalReport i h)]))) := by
    simp [fetchSiteTrace, hc, hh]
  rw [h1, writtenReports_append, writtenReports_append, writtenReports_append,
    writtenReports_append, writtenReports_preEvents, writtenReports_startEvents,
    writtenReports_parseEvents, writtenReports_handlerEvents]
  rfl

/-! ### Take/prefix lemmas for the write-after-resolution ordering -/

theorem length_lt_of_mem_take {α : Type} {a : α} {L M : List α} {n : Nat}
    (hnot : a ∉ L) (h : a ∈ (L ++ M).take n) : L.length < n := by
  by_contra hle
  push_neg at hle
  rw [List.take_append_eq_append_take, Nat.sub_eq_zero_of_le hle] at h
  simp only [List.take_zero, List.append_nil] at h
  exact hnot (List.take_subset n L h)

theorem mem_take_of_mem_left {α : Type} {a : α} {L M : List α} {n : Nat}
    (hm : a ∈ L) (hn : L.length ≤ n) : a ∈ (L ++ M).take n := by
  rw [List.take_append_eq_append_take, List.take_of_length_le hn]
  exact List.mem_append_left _ hm

theorem trace_ok_decomp (i : FetchInputs) (h : StreamedHeadResult)
    (hc : i.cached = none) (hh : i.htmlResult = .ok h) :
    fetchSiteTrace i =
      (preEvents ++ startEvents i ++ parseEvents i h ++ handlerEvents i i.sched ++
        [Event.setDataFull (finalReport i h)]) ++
      [Event.cacheWrite i.normalizedUrl (finalReport i h)] := by
  simp [fetchSiteTrace, hc, hh]

theorem resolved_main_mem_startEvents (i : FetchInputs) :
    Event.probeResolved .main ∈ startEvents i := by
  rcases hr : robotsUrl i with _ | u <;> rcases hs : sitemapUrl i with _ | v <;>
    simp [startEvents, hr, hs]

theorem resolved_mem_handlerEvents (i : FetchInputs) :
    ∀ (sched : List BgTask) (t : BgTask), t ∈ sched →
      Event.probeResolved (resolvedOf t) ∈ handlerEvents i sched := by
  intro sched
  induction sched with
  | nil => intro t ht; simp at ht
  | cons t' rest ih =>
    intro t ht
    rcases List.mem_cons.mp ht with rfl | hmem
    · show Event.probeResolved (resolvedOf t) ∈ handlerSeg i t ++ handlerEvents i rest
      apply List.mem_append_left
      cases t <;> simp [handlerSeg, resolvedOf]
    · exact List.mem_append_right _ (ih t hmem)

/-! ### Discoverability payload lemmas -/

theorem discU_not_mem_handlerSeg (i : FetchInputs) (t : BgTask)
    (d : DiscoverabilityData) :
    Event.dataUpdate (.discoverabilityU d) ∉ handlerSeg i t := by
  cases t with
  | dnsTask => simp [handlerSeg]
  | certTask => rcases hc : i.certInfo with _ | c <;> simp [handlerSeg, hc]
  | waybackTask =>
    rcases hw : i.waybackData with _ | w
    · simp [handlerSeg, hw]
    · by_cases hrl : w.rateLimited = some true <;> simp [handlerSeg, hw, hrl]
  | hostMetaTask => simp [handlerSeg]

theorem discU_not_mem_handlerEvents (i : FetchInputs) (d : DiscoverabilityData) :
    ∀ sched : List BgTask,
      Event.dataUpdate (.discoverabilityU d) ∉ handlerEvents i sched := by
  intro sched
  induction sched with
  | nil => simp [handlerEvents]
  | cons t rest ih =>
    show Event.dataUpdate (.discoverabilityU d) ∉ handlerSeg i t ++ handlerEvents i rest
    simp only [List.mem_append]
    exact fun hmem => hmem.elim (discU_not_mem_handlerSeg i t d) ih

theorem discU_not_mem_startEvents (i : FetchInputs) (d : DiscoverabilityData) :
    Event.dataUpdate (.discoverabilityU d) ∉ startEvents i := by
  rcases hr : robotsUrl i with _ | u <;> rcases hs : sitemapUrl i with _ | v <;>
    simp [startEvents, hr, hs]

theorem discU_mem_parseEvents (i : FetchInputs) (h : StreamedHeadResult)
    (d : DiscoverabilityData)
    (hm : Event.dataUpdate (.discoverabilityU d) ∈ parseEvents i h) :
    d = discOf i (i.parseHead h.headHtml) := by
  simp [parseEvents] at hm
  exact hm

/-! ### Progress over the concrete trace segments -/

theorem progMono_startEvents (i : FetchInputs) :
    ProgMono startedProgress (startEvents i) := by
  rcases hr : robotsUrl i with _ | u <;> rcases hs : sitemapUrl i with _ | v
  all_goals
    simp only [startEvents, hr, hs, List.append_assoc, List.cons_append,
      List.nil_append]
  all_goals
    repeat
      first
      | refine progMono_neutral_cons _ _ _ rfl ?_
      | refine progMono_update_cons _ _ _ _
          (by norm_num [progGet, progSet, startedProgress, progConst]) ?_
      | exact trivial

theorem applyEvs_startEvents (i : FetchInputs) :
    applyEvs startedProgress (startEvents i) = afterStartProgress := by
  rcases hr : robotsUrl i with _ | u <;> rcases hs : sitemapUrl i with _ | v <;>
    simp [startEvents, hr, hs, applyEvs, applyEv, progSet, startedProgress,
      progConst, afterStartProgress]

theorem progMono_parseEvents (i : FetchInputs) (h : StreamedHeadResult) :
    ProgMono afterStartProgress (parseEvents i h) := by
  simp only [parseEvents]
  repeat
    first
    | refine progMono_neutral_cons _ _ _ rfl ?_
    | refine progMono_update_cons _ _ _ _
        (by norm_num [progGet, progSet, afterStartProgress, startedProgress,
          progConst]) ?_
    | exact trivial

theorem applyEvs_parseEvents (i : FetchInputs) (h : StreamedHeadResult) :
    applyEvs afterStartProgress (parseEvents i h) = afterParseProgress := by
  simp [parseEvents, applyEvs, applyEv, progSet, afterStartProgress,
    startedProgress, progConst, afterParseProgress]

theorem bounded1_afterParseProgress : Bounded1 afterParseProgress := by
  intro c
  cases c <;> norm_num [progGet, afterParseProgress, afterStartProgress,
    startedProgress, progConst]

theorem progGet_initial (c : Category) : progGet initialProgress c = 0 := by
  cases c <;> rfl

theorem bounded1_progConst_one : Bounded1 (progConst 1) := by
  intro c; cases c <;> norm_num [progGet, progConst]

theorem bounded1_afterStart : Bounded1 afterStartProgress := by
  intro c
  cases c <;> norm_num [progGet, afterStartProgress, startedProgress, progConst]

theorem bounded1_afterParse : Bounded1 afterParseProgress := by
  intro c
  cases c <;> norm_num [progGet, afterParseProgress, afterStartProgress,
    startedProgress, progConst]

theorem step_init_started (c : Category) :
    progGet initialProgress c ≤ progGet startedProgress c := by
  cases c <;> norm_num [progGet, initialProgress, startedProgress, progConst]

theorem step_started_one (c : Category) :
    progGet startedProgress c ≤ progGet (progConst 1) c := by
  cases c <;> norm_num [progGet, startedProgress, progConst]

theorem progMono_le_final :
    ∀ (evs : List Event) (p : LoadingProgress), ProgMono p evs →
      ∀ c, progGet p c ≤ progGet (applyEvs p evs) c := by
  intro evs
  induction evs with
  | nil => intro p _ c; exact le_refl _
  | cons e tl ih =>
    intro p hp c
    exact le_trans (hp.1 c) (ih (applyEv p e) hp.2 c)

theorem bounds_of_mono_final (tr : List Event)
    (hm : ProgMono initialProgress tr)
    (hb : Bounded1 (applyEvs initialProgress tr)) :
    ∀ (n : Nat) (c : Category),
      0 ≤ progGet (applyEvs initialProgress (tr.take n)) c ∧
      progGet (applyEvs initialProgress (tr.take n)) c ≤ 1 := by
  intro n c
  have hsplit : tr.take n ++ tr.drop n = tr := List.take_append_drop n tr
  have hmono2 := (ProgMono_append (tr.take n) (tr.drop n) initialProgress).mp
    (by rw [hsplit]; exact hm)
  constructor
  · have h1 := progMono_le_final (tr.take n) initialProgress hmono2.1 c
    calc (0 : ℚ) = progGet initialProgress c := (progGet_initial c).symm
      _ ≤ _ := h1
  · have h2 := progMono_le_final (tr.drop n) _ hmono2.2 c
    rw [← applyEvs_append, hsplit] at h2
    exact le_trans h2 (hb c)

/-- C8: every run's first action resets the Progress State to all-zero; from
there every later progress write moves every category's fraction
non-decreasingly, and along every prefix of the run every fraction stays
within [0, 1]. -/
theorem progress_reset_then_monotone (i : FetchInputs) :
    ∃ rest, fetchSiteTrace i = Event.setProgressAll initialProgress :: rest ∧
      ProgMono initialProgress rest ∧
      ∀ (n : Nat) (c : Category),
        0 ≤ progGet (applyEvs initialProgress ((fetchSiteTrace i).take n)) c ∧
        progGet (applyEvs initialProgress ((fetchSiteTrace i).take n)) c ≤ 1 := by
  have main : ∃ tail,
      fetchSiteTrace i = Event.setProgressAll initialProgress ::
        Event.setProgressAll startedProgress :: tail ∧
      ProgMono startedProgress tail ∧
      Bounded1 (applyEvs startedProgress tail) := by
    rcases hcase : i.cached with _ | c
    · rcases hh : i.htmlResult with e | h
      · -- cache miss, main fetch failed
        refine ⟨startEvents i ++ [Event.abortBg, Event.fail "Failed to fetch website"],
          ?_, ?_, ?_⟩
        · simp [fetchSiteTrace, hcase, hh, preEvents, startedProgress]
        · rw [ProgMono_append]
          refine ⟨progMono_startEvents i, ?_⟩
          rw [applyEvs_startEvents]
          exact progMono_neutral_cons _ _ _ rfl
            (progMono_neutral_cons _ _ _ rfl trivial)
        · rw [applyEvs_append, applyEvs_startEvents]
          exact bounded1_afterStart
      · -- cache miss, main fetch succeeded
        refine ⟨startEvents i ++ (parseEvents i h ++ (handlerEvents i i.sched ++
          [Event.setDataFull (finalReport i h),
           Event.cacheWrite i.normalizedUrl (finalReport i h)])), ?_, ?_, ?_⟩
        · simp [fetchSiteTrace, hcase, hh, preEvents, startedProgress]
        · rw [ProgMono_append]
          refine ⟨progMono_startEvents i, ?_⟩
          rw [applyEvs_startEvents, ProgMono_append]
          refine ⟨progMono_parseEvents i h, ?_⟩
          rw [applyEvs_parseEvents, ProgMono_append]
          refine ⟨(progMono_handlerEvents i i.sched afterParseProgress
            bounded1_afterParse).1, ?_⟩
          exact progMono_neutral_cons _ _ _ rfl
            (progMono_neutral_cons _ _ _ rfl trivial)
        · rw [applyEvs_append, applyEvs_startEvents, applyEvs_append,
            applyEvs_parseEvents, applyEvs_append]
          have hb := (progMono_handlerEvents i i.sched afterParseProgress
            bounded1_afterParse).2
          intro c
          exact hb c
    · -- fresh cache hit
      refine ⟨[Event.setDataFull c, Event.setProgressAll (progConst 1)], ?_, ?_, ?_⟩
      · simp [fetchSiteTrace, hcase, preEvents, startedProgress]
      · exact progMono_neutral_cons _ _ _ rfl
          (progMono_setAll_cons _ _ _ step_started_one trivial)
      · intro c'
        exact bounded1_progConst_one c'
  obtain ⟨tail, h1, hmono, hbnd⟩ := main
  have hmono2 : ProgMono initialProgress
      (Event.setProgressAll startedProgress :: tail) :=
    progMono_setAll_cons _ _ _ step_init_started hmono
  have hfullmono : ProgMono initialProgress (fetchSiteTrace i) := by
    rw [h1]
    exact progMono_setAll_cons _ _ _ (fun c => by rw [progGet_initial]) hmono2
  have hfinal : applyEvs initialProgress (fetchSiteTrace i) =
      applyEvs startedProgress tail := by
    rw [h1, applyEvs_cons, applyEvs_cons]
    rfl
  refine ⟨Event.setProgressAll startedProgress :: tail, h1, hmono2, ?_⟩
  exact bounds_of_mono_final (fetchSiteTrace i) hfullmono (by rw [hfinal]; exact hbnd)

/-- C2: when the main fetch fails after its internal HTTPS→HTTP fallback, the
run signals the abort controller — cancelling every pending background
probe — and then reports the failure, as its final two actions; no Report
is ever written to the cache, and after the cancellation no progress
update, data merge or history reconciliation occurs (the only remaining
action is the failure report itself). -/
theorem inspect_main_failure_aborts (i : FetchInputs) (e : String)
    (hc : i.cached = none) (he : i.htmlResult = .error e) :
    ∃ pre, fetchSiteTrace i =
        pre ++ [Event.abortBg, Event.fail "Failed to fetch website"] ∧
      (∀ u r, Event.cacheWrite u r ∉ fetchSiteTrace i) ∧
      ∀ ev ∈ (fetchSiteTrace i).drop (pre.length + 1),
        (∀ c v, ev ≠ Event.updateProgress c v) ∧
        (∀ q, ev ≠ Event.setProgressAll q) ∧
        (∀ u, ev ≠ Event.dataUpdate u) ∧
        (∀ w, ev ≠ Event.historyReconcile w) := by
  have h1 : fetchSiteTrace i = (preEvents ++ startEvents i) ++
      [Event.abortBg, Event.fail "Failed to fetch website"] := by
    simp [fetchSiteTrace, hc, he]
  refine ⟨preEvents ++ startEvents i, h1, ?_, ?_⟩
  · intro u r hmem
    have h2 := (mem_writtenReports_iff u r _).mpr hmem
    rw [writtenReports_trace_error i e hc he] at h2
    simp at h2
  · intro ev hev
    rw [h1] at hev
    have h2 : (preEvents ++ startEvents i) ++
        [Event.abortBg, Event.fail "Failed to fetch website"] =
        ((preEvents ++ startEvents i) ++ [Event.abortBg]) ++
        [Event.fail "Failed to fetch website"] := by
      simp
    have h3 : ((preEvents ++ startEvents i) ++ [Event.abortBg]).length =
        (preEvents ++ startEvents i).length + 1 := by
      simp only [List.length_append, List.length_cons, List.length_nil]
    rw [h2, ← h3, List.drop_left] at hev
    simp only [List.mem_singleton] at hev
    subst hev
    refine ⟨fun c v => ?_, fun q => ?_, fun u => ?_, fun w => ?_⟩ <;> simp

/-- C2 witness: a concrete cache-miss run whose main fetch rejects. -/
theorem inspect_main_failure_aborts_witness :
    ∃ pre, fetchSiteTrace { baseInputs with htmlResult := .error "boom" } =
        pre ++ [Event.abortBg, Event.fail "Failed to fetch website"] ∧
      (∀ u r, Event.cacheWrite u r ∉
        fetchSiteTrace { baseInputs with htmlResult := .error "boom" }) ∧
      ∀ ev ∈ (fetchSiteTrace { baseInputs with htmlResult := .error "boom" }).drop
          (pre.length + 1),
        (∀ c v, ev ≠ Event.updateProgress c v) ∧
        (∀ q, ev ≠ Event.setProgressAll q) ∧
        (∀ u, ev ≠ Event.dataUpdate u) ∧
        (∀ w, ev ≠ Event.historyReconcile w) :=
  inspect_main_failure_aborts { baseInputs with htmlResult := .error "boom" }
    "boom" rfl rfl

/-- C6: on a fresh cache hit the cached Report is published as-is, the
Progress State ends at 1 for every category, no probe is started and no
Report is written back to the cache. -/
theorem inspect_cache_hit_no_work (store : List CacheEntry) (i : FetchInputs)
    (r : DiggerResult)
    (hfresh : getFromCache store i.normalizedUrl i.now = some r)
    (hc : i.cached = getFromCache store i.normalizedUrl i.now) :
    Event.setDataFull r ∈ fetchSiteTrace i ∧
    applyEvs initialProgress (fetchSiteTrace i) = progConst 1 ∧
    (∀ p, Event.probeStart p ∉ fetchSiteTrace i) ∧
    writtenReports (fetchSiteTrace i) = [] := by
  rw [hfresh] at hc
  have h1 : fetchSiteTrace i = preEvents ++
      [Event.setDataFull r, Event.setProgressAll (progConst 1)] := by
    simp [fetchSiteTrace, hc]
  refine ⟨?_, ?_, ?_, ?_⟩
  · rw [h1]; simp
  · rw [h1]; rfl
  · intro p; rw [h1]; simp [preEvents]
  · exact writtenReports_trace_hit i r hc

/-- C6 witness: a store holding a fresh entry for the requested URL. -/
theorem inspect_cache_hit_no_work_witness :
    Event.setDataFull priorReport ∈ fetchSiteTrace
        { baseInputs with cached := some priorReport } ∧
    applyEvs initialProgress (fetchSiteTrace
        { baseInputs with cached := some priorReport }) = progConst 1 ∧
    (∀ p, Event.probeStart p ∉ fetchSiteTrace
        { baseInputs with cached := some priorReport }) ∧
    writtenReports (fetchSiteTrace
        { baseInputs with cached := some priorReport }) = [] :=
  inspect_cache_hit_no_work
    [{ url := "https://e.com", data := priorReport, timestamp := 0, lastAccessed := 0 }]
    { baseInputs with cached := some priorReport } priorReport rfl rfl

/-- C1: if the archive probe came back rate limited with a zero or absent
snapshot count while the prior in-memory Report for the same normalized URL
holds a positive count, then the one Report the run writes to the cache
keeps that positive count and carries `rateLimited = true`. -/
theorem rate_limited_preserves_prior_count (i : FetchInputs)
    (h : StreamedHeadResult) (w : HistoryData) (d : DiggerResult)
    (ph : HistoryData) (n : Nat)
    (hc : i.cached = none) (hh : i.htmlResult = .ok h)
    (hw : i.waybackData = some w) (hrl : w.rateLimited = some true)
    (hz : w.waybackMachineSnapshots = none ∨ w.waybackMachineSnapshots = some 0)
    (hd : i.closureData = some d) (_hurl : d.url = i.normalizedUrl)
    (hph : d.history = some ph) (hn : ph.waybackMachineSnapshots = some n)
    (hpos : 0 < n) :
    ∃ r, writtenReports (fetchSiteTrace i) = [(i.normalizedUrl, r)] ∧
      ∃ hist, r.history = some hist ∧
        hist.waybackMachineSnapshots = some n ∧ hist.rateLimited = some true := by
  refine ⟨finalReport i h, writtenReports_trace_ok i h hc hh, ?_⟩
  refine ⟨{ ph with rateLimited := some true }, ?_, by simp [hn], rfl⟩
  obtain ⟨m, rfl⟩ : ∃ m, n = m + 1 := ⟨n - 1, by omega⟩
  rcases hz with hz | hz <;>
    simp [finalReport, finalHistory, hw, hrl, hz, hd, hph, hn]

/-- C1 witness: a run whose archive probe is rate limited with zero
snapshots while the captured prior Report for the same URL holds 42. -/
theorem rate_limited_preserves_prior_count_witness :
    ∃ r, writtenReports (fetchSiteTrace { baseInputs with
        waybackData := some rlZeroHistory, closureData := some priorReport }) =
      [("https://e.com", r)] ∧
      ∃ hist, r.history = some hist ∧
        hist.waybackMachineSnapshots = some 42 ∧ hist.rateLimited = some true :=
  rate_limited_preserves_prior_count
    { baseInputs with
        waybackData := some rlZeroHistory, closureData := some priorReport }
    okHead rlZeroHistory priorReport goodHistory 42 rfl rfl rfl rfl
    (Or.inr rfl) rfl rfl rfl rfl (by norm_num)

theorem probeStart_robots_mem_startEvents (i : FetchInputs) (u : String)
    (hr : robotsUrl i = some u) : Event.probeStart .robots ∈ startEvents i := by
  rcases hs : sitemapUrl i with _ | v <;> simp [startEvents, hr, hs]

theorem handlerEvents_ext (i j : FetchInputs)
    (h1 : i.dnsData = j.dnsData) (h2 : i.certInfo = j.certInfo)
    (h3 : i.waybackData = j.waybackData) (h4 : i.hostMeta = j.hostMeta) :
    ∀ sched : List BgTask, handlerEvents i sched = handlerEvents j sched := by
  intro sched
  induction sched with
  | nil => rfl
  | cons t rest ih =>
    show handlerSeg i t ++ handlerEvents i rest =
      handlerSeg j t ++ handlerEvents j rest
    rw [ih]
    cases t <;> simp [handlerSeg, h1, h2, h3, h4]

theorem fetchSiteTrace_robotsResult_irrelevant (i : FetchInputs)
    (r1 r2 : Option StreamedHeadResult) :
    fetchSiteTrace { i with robotsResult := r1 } =
      fetchSiteTrace { i with robotsResult := r2 } := by
  rcases hc2 : i.cached with _ | c
  · rcases hh2 : i.htmlResult with e | h <;>
      simp [fetchSiteTrace, hc2, hh2, startEvents, robotsUrl, sitemapUrl,
        parseEvents, discOf, sitemapSettled, finalReport] <;>
      (try (apply handlerEvents_ext <;> rfl))
  · simp [fetchSiteTrace, hc2]

/-- C9: on a cache miss the robots.txt fetch is launched (whenever a root
URL could be formed) but its outcome is entirely discarded: the whole run
is literally the same for any two robots.txt outcomes, every Report the
run writes has `discoverability.robotsTxt` unset, and so does every
discoverability payload merged along the way. -/
theorem robots_outcome_never_influences_report (i : FetchInputs)
    (r1 r2 : Option StreamedHeadResult) (hc : i.cached = none) :
    fetchSiteTrace { i with robotsResult := r1 } =
      fetchSiteTrace { i with robotsResult := r2 } ∧
    ((robotsUrl i).isSome → Event.probeStart .robots ∈ fetchSiteTrace i) ∧
    (∀ u r, (u, r) ∈ writtenReports (fetchSiteTrace i) →
      ∃ disc, r.discoverability = some disc ∧ disc.robotsTxt = none) ∧
    (∀ d, Event.dataUpdate (.discoverabilityU d) ∈ fetchSiteTrace i →
      d.robotsTxt = none) := by
  refine ⟨fetchSiteTrace_robotsResult_irrelevant i r1 r2, ?_, ?_, ?_⟩
  · intro hsome
    rcases hr : robotsUrl i with _ | u
    · rw [hr] at hsome; simp at hsome
    · have hmem := probeStart_robots_mem_startEvents i u hr
      rcases hh : i.htmlResult with e | h
      · have h1 : fetchSiteTrace i = (preEvents ++ startEvents i) ++
            [Event.abortBg, Event.fail "Failed to fetch website"] := by
          simp [fetchSiteTrace, hc, hh]
        rw [h1]
        exact List.mem_append_left _ (List.mem_append_right _ hmem)
      · rw [trace_ok_decomp i h hc hh]
        exact List.mem_append_left _ (List.mem_append_left _
          (List.mem_append_left _ (List.mem_append_left _
            (List.mem_append_right _ hmem))))
  · intro u r hmem
    rcases hh : i.htmlResult with e | h
    · rw [writtenReports_trace_error i e hc hh] at hmem
      simp at hmem
    · rw [writtenReports_trace_ok i h hc hh] at hmem
      simp only [List.mem_singleton, Prod.mk.injEq] at hmem
      obtain ⟨hu, hr2⟩ := hmem
      subst hr2
      exact ⟨discOf i (i.parseHead h.headHtml), rfl, rfl⟩
  · intro d hd
    rcases hh : i.htmlResult with e | h
    · have h1 : fetchSiteTrace i = (preEvents ++ startEvents i) ++
          [Event.abortBg, Event.fail "Failed to fetch website"] := by
        simp [fetchSiteTrace, hc, hh]
      rw [h1] at hd
      simp only [List.mem_append] at hd
      rcases hd with (hd | hd) | hd
      · simp [preEvents] at hd
      · exact absurd hd (discU_not_mem_startEvents i d)
      · simp at hd
    · rw [trace_ok_decomp i h hc hh] at hd
      simp only [List.mem_append] at hd
      rcases hd with ((((hd | hd) | hd) | hd) | hd) | hd
      · simp [preEvents] at hd
      · exact absurd hd (discU_not_mem_startEvents i d)
      · rw [discU_mem_parseEvents i h d hd]
        rfl
      · exact absurd hd (discU_not_mem_handlerEvents i d i.sched)
      · simp at hd
      · simp at hd

/-- C9 witness: the baseline cache-miss run, with a successful robots.txt
outcome versus no robots.txt outcome. -/
theorem robots_outcome_never_influences_report_witness :
    fetchSiteTrace { baseInputs with robotsResult := some okHead } =
      fetchSiteTrace { baseInputs with robotsResult := none } ∧
    ((robotsUrl baseInputs).isSome →
      Event.probeStart .robots ∈ fetchSiteTrace baseInputs) ∧
    (∀ u r, (u, r) ∈ writtenReports (fetchSiteTrace baseInputs) →
      ∃ disc, r.discoverability = some disc ∧ disc.robotsTxt = none) ∧
    (∀ d, Event.dataUpdate (.discoverabilityU d) ∈ fetchSiteTrace baseInputs →
      d.robotsTxt = none) :=
  robots_outcome_never_influences_report baseInputs (some okHead) none rfl

/-- C7: in a run whose main fetch succeeded and whose four background
handlers all fire, every prefix of the run that contains the cache write
already contains the resolution of each of the five probes — the Report is
written only after the primary-document, DNS, TLS, archive and
host-metadata probes have all resolved. -/
theorem report_cached_only_after_probes_resolved (i : FetchInputs)
    (h : StreamedHeadResult) (hc : i.cached = none) (hh : i.htmlResult = .ok h)
    (hsched : ∀ t : BgTask, t ∈ i.sched) :
    ∀ (n : Nat) (u : String) (r : DiggerResult),
      Event.cacheWrite u r ∈ (fetchSiteTrace i).take n →
      ∀ p : ProbeKind,
        p = .main ∨ p = .dnsProbe ∨ p = .cert ∨ p = .wayback ∨ p = .hostMeta →
        Event.probeResolved p ∈ (fetchSiteTrace i).take n := by
  intro n u r hmem p hp
  have hdec := trace_ok_decomp i h hc hh
  rw [hdec] at hmem ⊢
  have hnotin : Event.cacheWrite u r ∉
      preEvents ++ startEvents i ++ parseEvents i h ++ handlerEvents i i.sched ++
        [Event.setDataFull (finalReport i h)] := by
    intro hmemL
    have h2 := (mem_writtenReports_iff u r _).mpr hmemL
    rw [writtenReports_append, writtenReports_append, writtenReports_append,
      writtenReports_append, writtenReports_preEvents, writtenReports_startEvents,
      writtenReports_parseEvents, writtenReports_handlerEvents] at h2
    simp [writtenReports] at h2
  have hlen := length_lt_of_mem_take hnotin hmem
  have hres : Event.probeResolved p ∈
      preEvents ++ startEvents i ++ parseEvents i h ++ handlerEvents i i.sched ++
        [Event.setDataFull (finalReport i h)] := by
    rcases hp with rfl | rfl | rfl | rfl | rfl
    · exact List.mem_append_left _ (List.mem_append_left _ (List.mem_append_left _
        (List.mem_append_right _ (resolved_main_mem_startEvents i))))
    · exact List.mem_append_left _ (List.mem_append_right _
        (resolved_mem_handlerEvents i i.sched .dnsTask (hsched _)))
    · exact List.mem_append_left _ (List.mem_append_right _
        (resolved_mem_handlerEvents i i.sched .certTask (hsched _)))
    · exact List.mem_append_left _ (List.mem_append_right _
        (resolved_mem_handlerEvents i i.sched .waybackTask (hsched _)))
    · exact List.mem_append_left _ (List.mem_append_right _
        (resolved_mem_handlerEvents i i.sched .hostMetaTask (hsched _)))
  exact mem_take_of_mem_left hres (le_of_lt hlen)

/-- C7 witness: in the baseline run (43 events long), the prefix of length
43 contains the cache write, so it contains the archive probe's
resolution. -/
theorem report_cached_only_after_probes_resolved_witness :
    Event.probeResolved .wayback ∈ (fetchSiteTrace baseInputs).take 43 :=
  report_cached_only_after_probes_resolved baseInputs okHead rfl rfl
    (by intro t; cases t <;> simp [baseInputs]) 43 "https://e.com"
    (finalReport baseInputs okHead) (by decide) .wayback
    (Or.inr (Or.inr (Or.inr (Or.inl rfl))))

/-- C3 (code evaluated at the failing input): `fetchHeadOnly`'s head
extraction cuts the capture at an early `</head>` marker even though fewer
than `MIN_HEAD_BYTES` characters precede it — the configured floor is never
consulted, so the capture stops at character 35 of a response that
continues past it. -/
theorem extractHead_cuts_before_min_floor :
    extractHead earlyHeadInput =
      { headHtml := "<html><head><title>x</title></head>", truncated := true } ∧
    strLen (extractHead earlyHeadInput).headHtml < MIN_HEAD_BYTES ∧
    strLen (extractHead earlyHeadInput).headHtml < strLen earlyHeadInput := by
  refine ⟨by decide, by decide, by decide⟩

/-- C4: an existence probe reports `exists=true` only when the HTTP status is
2xx and the body passed the HTML/soft-404 validation (content-type header
plus document-marker scan); conversely a 2xx response whose body fails that
validation — e.g. an HTML "page not found" page behind HTTP 200 — yields
`exists=false` and `isSoft404=true`. -/
theorem fetchTextResource_exists_only_if_valid :
    ∀ (status : Nat) (ct : Option String) (content : String),
      ((fetchTextResource status ct content).exists' = true →
        isStatus2xx status = true ∧ isValidTextResource ct content = true) ∧
      (isStatus2xx status = true → isValidTextResource ct content = false →
        (fetchTextResource status ct content).exists' = false ∧
        (fetchTextResource status ct content).isSoft404 = true) := by
  intro status ct content
  unfold fetchTextResource
  rcases h2 : isStatus2xx status with _ | _ <;>
    rcases hv : isValidTextResource ct content with _ | _ <;>
      simp [h2, hv]

/-- C4 witness: a robots.txt request answered with HTTP 200 and an HTML
"Page not found" body is classified `exists=false`, `isSoft404=true`. -/
theorem fetchTextResource_exists_only_if_valid_witness :
    (fetchTextResource 200 (some "text/html")
        "<html><body>Page not found</body></html>").exists' = false ∧
    (fetchTextResource 200 (some "text/html")
        "<html><body>Page not found</body></html>").isSoft404 = true :=
  (fetchTextResource_exists_only_if_valid 200 (some "text/html")
      "<html><body>Page not found</body></html>").2 (by decide) (by decide)

/-- C5: the main-document fetch attempts an explicit-`http:` URL exactly once
with no HTTPS attempt; any other (in particular `https:`) URL is attempted
as given first, and only if that attempt throws is it re-attempted exactly
once over HTTP; no run ever makes more than two attempts. -/
theorem fallback_attempt_policy :
    ∀ (oracle : String → Except String StreamedHeadResult) (url : String),
      (urlProtocol url = "http:" →
        (fetchHeadOnlyWithFallback oracle url).attempts = [url]) ∧
      (urlProtocol url = "https:" →
        (∀ r, oracle url = .ok r →
          (fetchHeadOnlyWithFallback oracle url).attempts = [url]) ∧
        (∀ e, oracle url = .error e →
          (fetchHeadOnlyWithFallback oracle url).attempts = [url, toHttpUrl url])) ∧
      (fetchHeadOnlyWithFallback oracle url).attempts.length ≤ 2 := by
  intro oracle url
  unfold fetchHeadOnlyWithFallback
  by_cases hp : urlProtocol url = "http:"
  · simp [hp]
  · rcases ho : oracle url with e | r
    · rcases ho2 : oracle (toHttpUrl url) with e2 | r2 <;>
        simp [hp, ho, ho2]
    · simp [hp, ho]

/-- C5 witness: for an HTTPS URL whose HTTPS attempt throws, the run attempts
the URL as given and then exactly once more over HTTP. -/
theorem fallback_attempt_policy_witness :
    (fetchHeadOnlyWithFallback (fun _ => .error "tls handshake failed")
        "https://a.com").attempts = ["https://a.com", "http://a.com"] :=
  ((fallback_attempt_policy (fun _ => .error "tls handshake failed")
      "https://a.com").2.1 (by decide)).2 "tls handshake failed" rfl

/-- C10: when the HTTPS attempt and the HTTP fallback both throw, the
fallback wrapper re-throws the original HTTPS attempt's error; the HTTP
attempt's error is discarded. -/
theorem fallback_both_fail_keeps_https_error :
    ∀ (oracle : String → Except String StreamedHeadResult) (url : String)
      (e1 e2 : String),
      urlProtocol url ≠ "http:" →
      oracle url = .error e1 →
      oracle (toHttpUrl url) = .error e2 →
      (fetchHeadOnlyWithFallback oracle url).result = .error e1 := by
  intro oracle url e1 e2 hp h1 h2
  unfold fetchHeadOnlyWithFallback
  simp [hp, h1, h2]

/-- C10 witness: with distinct errors on the two attempts, the wrapper's
result carries the HTTPS attempt's error. -/
theorem fallback_both_fail_keeps_https_error_witness :
    (fetchHeadOnlyWithFallback twoErrorOracle "https://a.com").result =
      .error "https boom" :=
  fallback_both_fail_keeps_https_error twoErrorOracle "https://a.com"
    "https boom" "http boom" (by decide) rfl rfl

end Digger
